import Mathlib

/-!
Verification development for the powlib simulation library.

Each Python construct that the checked properties depend on is embedded as an
executable Lean definition, translated from the corresponding source file.
Python exceptions are modelled by an explicit error type, Python dicts by
ordered association lists with unique keys, and cocotb signal handles by the
data relevant to the property (for a construction-time type check, only the
fact of being a SimHandleBase matters, so a handle is a Bool flag).
-/

/-- The Python exception classes raised by the embedded code paths. -/
inductive PyExn where
  | typeError
  | valueError
  | attributeError
deriving DecidableEq, Repr

/-! ## powlib/__init__.py : Interface construction (claim C1)

`Interface.__init__(**kwargs)` performs two checks before delegating to
`Namespace.__init__`:

    if not all(isinstance(handle, SimHandleBase) for name, handle in kwargs.items()):
        raise TypeError(...)
    if not all(name in self._cntrl for name, handle in kwargs.items()):
        raise TypeError("The interface should include all the controls: ...")

`kwargs` is embedded as the ordered list of (name, is-SimHandleBase) pairs and
`self._cntrl` as the list of declared control names. -/

def interfaceInit (cntrl : List String) (kwargs : List (String × Bool)) :
    Except PyExn Unit :=
  if !(kwargs.all fun p => p.2) then .error .typeError
  else if !(kwargs.all fun p => cntrl.contains p.1) then .error .typeError
  else .ok ()

/-- Modelled from the claim text, for comparison with `interfaceInit`:
construction fails with a type error exactly when some supplied value is not a
Signal handle or some declared control name is missing from the supplied
names; otherwise it succeeds. -/
def interfaceInitSpec (cntrl : List String) (kwargs : List (String × Bool)) :
    Except PyExn Unit :=
  if !(kwargs.all fun p => p.2) then .error .typeError
  else if !(cntrl.all fun c => (kwargs.map Prod.fst).contains c) then .error .typeError
  else .ok ()

/-! ## powlib/__init__.py : Interface.transaction (claim C2)

    def transaction(self, **data):
        trans = {}
        for name, handle in vars(self).items():
            if name is not self._cntrl:
                trans[name] = getattr(data, name, None)
        return Transaction(**trans)

Two observations fixed by the Python semantics of the source text:
the guard compares the str `name` against the list `self._cntrl` with the
identity operator, and objects of different types are never identical, so the
guard is True for every member name; and `getattr(data, name, None)` looks up
an attribute on the kwargs dict object, which carries no attribute named after
a signal, so the default None is produced regardless of supplied overrides. -/

/-- The guard `name is not self._cntrl`: a str is never the same object as a
list, so the test is True for every name. -/
def strIsNotList (name : String) (cntrl : List String) : Bool := true

/-- `getattr(data, name, None)` on the kwargs dict: dict keys are not
attributes, so the lookup yields the default None for every signal name. -/
def dictGetattr (overrides : List (String × Nat)) (name : String) : Option Nat :=
  none

/-- The member list of the Transaction built by `Interface.transaction`,
given the interface member names (in insertion order), the declared control
names, and the keyword overrides. -/
def transactionMembers (names cntrl : List String)
    (overrides : List (String × Nat)) : List (String × Option Nat) :=
  names.filterMap fun n =>
    if strIsNotList n cntrl then some (n, dictGetattr overrides n) else none

/-- Modelled from the claim text, for comparison with `transactionMembers`:
the attributes are exactly the data-signal names (control names excluded),
each valued by its override when one was given and None otherwise. -/
def transactionSpec (names cntrl : List String)
    (overrides : List (String × Nat)) : List (String × Option Nat) :=
  (names.filter fun n => !(cntrl.contains n)).map fun n =>
    (n, (overrides.find? fun p => p.1 == n).map Prod.snd)

/-! ## powlib/__init__.py : Namespace equality (claim C9)

    def issubsetof(self, namespace):
        return all( hasattr(namespace, mem) and getattr(namespace, mem)==val
                    for mem, val in vars(self).items() )
    def isequalto(self, namespace):
        return self.issubsetof(namespace) and (self.size()==namespace.size())
    def size(self):
        return len(vars(self))

`vars(ns)` is embedded as an association list of (attribute name, value)
pairs whose keys are unique, since a Python object dict maps each attribute
name once. Values live in an arbitrary type with decidable equality, matching
the value semantics of `==` on the data carried by these namespaces. -/

/-- `hasattr(ns, k)` over the embedded attribute dict. -/
def pyHasattr {V : Type} (ns : List (String × V)) (k : String) : Bool :=
  (ns.find? fun p => p.1 == k).isSome

/-- `getattr(ns, k)` over the embedded attribute dict, as an Option. -/
def pyGetattr {V : Type} (ns : List (String × V)) (k : String) : Option V :=
  (ns.find? fun p => p.1 == k).map Prod.snd

/-- `Namespace.issubsetof`. -/
def issubsetof {V : Type} [DecidableEq V] (a b : List (String × V)) : Bool :=
  a.all fun p => pyHasattr b p.1 && decide (pyGetattr b p.1 = some p.2)

/-- `Namespace.isequalto`. -/
def isequalto {V : Type} [DecidableEq V] (a b : List (String × V)) : Bool :=
  issubsetof a b && decide (a.length = b.length)

/-! ## powlib/verify/__init__.py : InPort (claims C5, C6)

    def write(self, data):
        self.__data.append(data)
        self.block.behavior()

    def read(self):
        try: return self.__data.popLeft()
        except IndexError: return None

The buffer is a `collections.deque`. The attribute lookup `self.__data.popLeft`
is resolved against the methods a deque actually provides; the deque method
that removes from the left is spelled `popleft` (as used correctly by
`Driver._read` in powlib/verify/component.py), so the lookup of `popLeft`
raises AttributeError, which the `except IndexError` clause does not catch. -/

/-- The attributes provided by `collections.deque`. -/
def dequeMethods : List String :=
  ["append", "appendleft", "clear", "copy", "count", "extend", "extendleft",
   "index", "insert", "maxlen", "pop", "popleft", "remove", "reverse", "rotate"]

/-- `InPort.read` from powlib/verify/__init__.py: on success it would return
the popped value (None when empty) together with the remaining buffer. -/
def inPortRead (buf : List Nat) : Except PyExn (Option Nat × List Nat) :=
  if dequeMethods.contains "popLeft" then
    match buf with
    | [] => .ok (none, [])
    | d :: rest => .ok (some d, rest)
  else .error .attributeError

/-- The observable state of an InPort together with its owning Block: the
buffered FIFO and the number of times `block.behavior()` has run. -/
structure InPortState where
  buf : List Nat
  behaviorRuns : Nat
deriving DecidableEq, Repr

/-- `InPort.write` from powlib/verify/__init__.py: appends to the deque and
then calls `self.block.behavior()` directly, inside the write call. -/
def inPortWrite (s : InPortState) (d : Nat) : InPortState :=
  { buf := s.buf ++ [d], behaviorRuns := s.behaviorRuns + 1 }

/-! ## OutPort connect/disconnect (claim C7)

The repository holds two variants of OutPort.disconnect. The one in
powlib/verify/__init__.py returns a found/not-found boolean:

    def disconnect(self, inport):
        ridx = None
        for idx, inp in enumerate(self.__inports):
            if inp is inport:
                ridx = idx
                break
        if ridx is not None:
            del self.__inports[idx]
            return True
        return False

The one in powlib/verify/block.py (the module imported by component.py and
BusAgent.py, so the variant on the live code path) runs the same
find-first-and-delete loop but ends with

        if ridx is not None:
            del self.__inports[idx]
        return inport._block

returning the block associated with the inport whether or not it was found,
and never a boolean. `connect` appends in both variants. InPort objects are
compared by identity, so each port is embedded as a unique Nat id and `is`
as equality of ids; `blockOf` maps each port id to the id of its owning
Block (fixed at Port construction). -/

def outPortConnect (inports : List Nat) (p : Nat) : List Nat :=
  inports ++ [p]

/-- `OutPort.disconnect` from powlib/verify/__init__.py. -/
def outPortDisconnect (inports : List Nat) (p : Nat) : List Nat × Bool :=
  match inports.findIdx? (fun inp => inp == p) with
  | some i => (inports.eraseIdx i, true)
  | none => (inports, false)

/-- `OutPort.disconnect` from powlib/verify/block.py: same removal, but the
return value is `inport._block` in the found and not-found cases alike. -/
def outPortDisconnectBlk (blockOf : Nat → Nat) (inports : List Nat) (p : Nat) :
    List Nat × Nat :=
  match inports.findIdx? (fun inp => inp == p) with
  | some i => (inports.eraseIdx i, blockOf p)
  | none => (inports, blockOf p)

/-! ## powlib/verify/agents/BusAgent.py : BusAgent.read (claim C3)

The read coroutine connects a transient InPort to the response monitor
outport, issues one READ request per address, then consumes exactly one
response per issued address in arrival order (clear event, wait, assert
ready, pop one).  The stream of responses arriving on the transient port is
embedded as a list in arrival order; `none` stands for the run never
completing (a wakeup with no data fails the assert, missing replies block).
At the end:

    if len(transList)==1:
        raise ReturnValue(transList[0])
    else:
        raise ReturnValue(transList)
-/

def busAgentRead {α : Type} (addr : Sum Nat (List Nat)) (responses : List α) :
    Option (Sum α (List α)) :=
  let addrList := match addr with
    | Sum.inl a => [a]
    | Sum.inr l => l
  if addrList.length ≤ responses.length then
    let transList := responses.take addrList.length
    if transList.length = 1 then transList.head?.map Sum.inl
    else some (Sum.inr transList)
  else none

/-! ## powlib/verify/agent.py and BusAgent construction (claim C4)

    def __init__(self, drivers, monitors=None):
        if not isinstance(drivers, Namespace):
            raise TypeError("drivers must be a Namespace.")
        for key, item in vars(drivers):
            if not isinstance(item, Driver):
                raise TypeError("drivers must be a Namespace of Drivers.")
        if monitors is not None:
            if not isinstance(monitors, Namespace):
                raise TypeError("monitors must be a Namespace.")
            for key, item in vars(monitors):
                if not isinstance(item, Monitor):
                    raise TypeError("monitors must be a Namespace of Monitors.")

`vars(drivers)` is a dict, and iterating a dict yields its keys (strings),
not (key, value) pairs. The tuple target `key, item` therefore unpacks each
key string character-wise: a two-character key binds two one-character
strings, so `item` is a str and never a Driver or Monitor instance, while
any key of a different length raises ValueError during unpacking. -/

/-- `isinstance(item, Driver)` and `isinstance(item, Monitor)` where `item`
is a one-character string produced by unpacking a key: always false. -/
def isinstanceDriverOrMonitor (item : Char) : Bool := false

/-- The `for key, item in vars(ns)` validation loop over the attribute keys
of a drivers or monitors Namespace, raising at the first offending key. -/
def agentCheckItems : List String → Except PyExn Unit
  | [] => .ok ()
  | k :: rest =>
    match k.toList with
    | [_, item] =>
        if isinstanceDriverOrMonitor item then agentCheckItems rest
        else .error .typeError
    | _ => .error .valueError

/-- Python statement sequencing over possible exceptions: run the first
statement and propagate its exception, otherwise run the second. -/
def seqE {A B : Type} (x : Except PyExn A) (y : Except PyExn B) :
    Except PyExn B :=
  match x with
  | .ok _ => y
  | .error e => .error e

/-- `Agent.__init__` embedded on the attribute keys of the two Namespace
arguments (none encodes passing None): drivers must be a Namespace (None is
rejected), then its items are validated; monitors, when not None, are
validated the same way. -/
def agentInit (driverKeys monitorKeys : Option (List String)) :
    Except PyExn Unit :=
  seqE
    (match driverKeys with
     | none => .error .typeError
     | some ks => agentCheckItems ks)
    (match monitorKeys with
     | none => .ok ()
     | some ks => agentCheckItems ks)

/-- `HandshakeInterface._cntrl`: Interface declares no controls,
RegisterInterface adds clk and rst, HandshakeInterface adds vld and rdy. -/
def handshakeCntrl : List String := ["clk", "rst", "vld", "rdy"]

/-- `BusAgent.__init__` embedded on the (name, is-SimHandleBase) pairs of
the two interfaces plus the passive flag. When not passive, the
HandshakeWriteDriver and HandshakeReadDriver are constructed first, each
casting its interface through `HandshakeInterface(**vars(interface))` and so
re-running the Interface construction checks; in both modes the two
HandshakeMonitors cast both interfaces the same way; finally
`Agent.__init__` runs with driver keys wr, rd (None when passive) and
monitor keys wr, rd. -/
def busAgentInit (wrNames rdNames : List (String × Bool)) (passive : Bool) :
    Except PyExn Unit :=
  seqE
    (if passive then .ok ()
     else seqE (interfaceInit handshakeCntrl wrNames)
               (interfaceInit handshakeCntrl rdNames))
    (seqE (interfaceInit handshakeCntrl wrNames)
      (seqE (interfaceInit handshakeCntrl rdNames)
        (agentInit (if passive then none else some ["wr", "rd"])
                   (some ["wr", "rd"]))))

/-! ## powlib/verify/agents/HandshakeAgent.py : NeverAllow (claim C8)

The HandshakeWriteDriver drive loop is `RegisterDriver._drive` with the
HandshakeWriteDriver overrides:

    def _drive(self):                       # RegisterDriver
        yield self._write_default()
        yield self._wait_reset()
        while True:
            while (self._ready()):
                yield self._write(self._read())
                yield self._synchronize()
            yield self._event.wait()
            self._event.clear()
            yield RegisterInterface._synchronize(self._interface)

    def _write(self, data):                 # HandshakeWriteDriver
        self._interface.write(data)
        while next(self.allow)==False:
            self._interface.vld.value = 0
            yield RegisterInterface._synchronize(self._interface)
        self._interface.vld.value = 1
        yield NullTrigger()

`_write_default` assigns vld = 0 and zero-writes the remaining signals, and
the `_synchronize` override assigns vld = 0 when the queue has emptied. The
loop is embedded as a step function over explicit control points; external
waits (reset, clock edges, handshake completion, the queue event) are
over-approximated as always completing, which only enlarges the reachable
state set. -/

/-- `NeverAllow = (False for _ in iter(int, 1))`: the infinite generator of
False decisions, indexed by how many values have been consumed with next().
-/
def NeverAllow : Nat → Bool := fun _ => false

/-- `AlwaysAllow = (True for _ in iter(int, 1))`. -/
def AlwaysAllow : Nat → Bool := fun _ => true

/-- Control points of the HandshakeWriteDriver drive loop. -/
inductive HsPC where
  | writeDefault
  | waitReset
  | checkReady
  | writeData
  | allowLoop
  | setValid
  | syncHandshake
  | postSync
  | eventWait
deriving DecidableEq, Repr

/-- State of the drive loop: control point, pending driver queue (each item
records the value of the vld attribute the queued transaction carries, none
when it has no vld member, as for the addr/data/be/op bus transactions),
the congestion generator position, and whether the loop has ever assigned 1
to the vld signal of its interface. -/
structure HsState where
  pc : HsPC
  queue : List (Option Nat)
  allowIdx : Nat
  vldOneAssigned : Bool
deriving DecidableEq, Repr

/-- One step of the drive loop. An assignment of 1 to vld happens exactly at
`setValid` (the statement after the allow loop) and at `writeData` when the
popped transaction itself carries a vld attribute equal to 1
(`Interface.write` copies every non-None member onto the matching signal).
`writeDefault`, `allowLoop` and `postSync` only ever assign 0 to vld. -/
def hsStep (allow : Nat → Bool) (s : HsState) : HsState :=
  match s.pc with
  | .writeDefault => { s with pc := .waitReset }
  | .waitReset => { s with pc := .checkReady }
  | .checkReady =>
      if s.queue.isEmpty then { s with pc := .eventWait }
      else { s with pc := .writeData }
  | .writeData =>
      match s.queue with
      | [] => { s with pc := .allowLoop }
      | item :: rest =>
          { s with pc := .allowLoop, queue := rest,
                   vldOneAssigned := s.vldOneAssigned || (item == some 1) }
  | .allowLoop =>
      if allow s.allowIdx then
        { s with pc := .setValid, allowIdx := s.allowIdx + 1 }
      else { s with allowIdx := s.allowIdx + 1 }
  | .setValid => { s with pc := .syncHandshake, vldOneAssigned := true }
  | .syncHandshake => { s with pc := .postSync }
  | .postSync => { s with pc := .checkReady }
  | .eventWait => { s with pc := .checkReady }

/-- Reachable states of the drive loop: the start of `_drive` with any
pending queue of P-transactions, closed under loop steps and under
concurrent `Driver.write` calls appending further P-transactions. -/
inductive HsReach (allow : Nat → Bool) (P : Option Nat → Prop) : HsState → Prop where
  | init (q : List (Option Nat)) (hq : ∀ it ∈ q, P it) :
      HsReach allow P ⟨.writeDefault, q, 0, false⟩
  | step (s : HsState) (h : HsReach allow P s) : HsReach allow P (hsStep allow s)
  | enqueue (s : HsState) (it : Option Nat) (h : HsReach allow P s) (hit : P it) :
      HsReach allow P { s with queue := s.queue ++ [it] }

/-! ## powlib/verify/blocks/__init__.py : RamBlock (claim C10)

    BYTE_WIDTH = 8
    BYTE_MASK  = (1<<BYTE_WIDTH)-1

    def __init__(self, bpd=4, defaultByte=0x00):
        ...
        self.__defaultByte = defaultByte&BYTE_MASK

    def write(self, addr, data, be=0xF):
        for each_byte in range(self.__bpd):
            if be&1:
                byte                 = data&BYTE_MASK
                byteAddr             = addr+each_byte
                self.__ram[byteAddr] = byte
            data >>= BYTE_WIDTH
            be   >>= 1

    def read(self, addr):
        data = 0
        for each_byte in range(self.__bpd):
            byteAddr = addr+each_byte
            byte     = self.__ram.get(byteAddr, self.__defaultByte)
            data    |= byte<<(each_byte*BYTE_WIDTH)
        return data

The ram dict is embedded as a function from byte addresses to optionally
present bytes; `dict.get` with a default becomes `Option.getD`. The write
loop advances the byte address while shifting data and be down, exactly as
the Python loop does. -/

def BYTE_WIDTH : Nat := 8

def BYTE_MASK : Nat := (1 <<< BYTE_WIDTH) - 1

/-- The `RamBlock.write` loop: iterations left, ram contents, next byte
address, current (already shifted) data and be values. -/
def ramWriteLoop : Nat → (Nat → Option Nat) → Nat → Nat → Nat → (Nat → Option Nat)
  | 0, ram, _, _, _ => ram
  | n + 1, ram, byteAddr, data, be =>
      ramWriteLoop n
        (if be &&& 1 = 1 then
          fun a => if a = byteAddr then some (data &&& BYTE_MASK) else ram a
         else ram)
        (byteAddr + 1) (data >>> BYTE_WIDTH) (be >>> 1)

/-- `RamBlock.write(addr, data, be)` on a RamBlock with `bpd` bytes per
word. -/
def ramWrite (bpd : Nat) (ram : Nat → Option Nat) (addr data be : Nat) :
    Nat → Option Nat :=
  ramWriteLoop bpd ram addr data be

/-- The `RamBlock.read` loop: iterations left, current byte index, and the
accumulated word. -/
def ramReadLoop (ram : Nat → Option Nat) (defaultByte addr : Nat) :
    Nat → Nat → Nat → Nat
  | 0, _, acc => acc
  | n + 1, i, acc =>
      ramReadLoop ram defaultByte addr n (i + 1)
        (acc ||| (((ram (addr + i)).getD defaultByte) <<< (i * BYTE_WIDTH)))

/-- `RamBlock.read(addr)` on a RamBlock with `bpd` bytes per word and the
given (already masked) default byte. -/
def ramRead (bpd defaultByte : Nat) (ram : Nat → Option Nat) (addr : Nat) :
    Nat :=
  ramReadLoop ram defaultByte addr bpd 0 0

/-- The little-endian word assembled from the bytes f 0 .. f (n-1); used to
characterise `ramRead`. -/
def bytesVal (f : Nat → Nat) : Nat → Nat
  | 0 => 0
  | n + 1 => f 0 + 256 * bytesVal (fun k => f (k + 1)) n

/-! ### Theorems -/

/-- C1: the claim states that Interface construction fails exactly when a
value is not a Signal handle or a declared control name is missing, and in
particular succeeds when all controls are present together with any data
names. The code instead requires every supplied name to be a declared
control: an argument set with all controls present plus one data name is
rejected, while an argument set missing a control is accepted. Evaluated at
the control set of a register interface. -/
theorem interfaceInit_rejects_valid_construction :
    interfaceInit ["clk", "rst"] [("clk", true), ("rst", true), ("data", true)]
      = .error .typeError ∧
    interfaceInitSpec ["clk", "rst"] [("clk", true), ("rst", true), ("data", true)]
      = .ok () ∧
    interfaceInit ["clk", "rst"] [("clk", true)] = .ok () ∧
    interfaceInitSpec ["clk", "rst"] [("clk", true)] = .error .typeError :=
  ⟨rfl, rfl, rfl, rfl⟩

/-- C2: the claim states that `transaction(**overrides)` keeps exactly the
data-signal names with overrides applied. On an interface holding the control
signals clk and rst, the code instead returns a Transaction that still
carries both control names, each valued None even when an override was
supplied, while the claimed result carries no members at all. -/
theorem transaction_keeps_controls_drops_overrides :
    transactionMembers ["clk", "rst"] ["clk", "rst"] [("clk", 7)]
      = [("clk", none), ("rst", none)] ∧
    transactionSpec ["clk", "rst"] ["clk", "rst"] [("clk", 7)] = [] :=
  ⟨rfl, rfl⟩

/-- C5: the claim states that reads from an InPort return buffered values in
FIFO order and yield None on an empty port without raising. Instead every
call of `InPort.read` raises AttributeError, because the buffer is a deque
and the method invoked is spelled `popLeft` while the deque provides only
`popleft`; the `except IndexError` guard does not catch it. -/
theorem inPortRead_always_attributeError (buf : List Nat) :
    inPortRead buf = .error .attributeError :=
  rfl

/-- C6 counterexample: the claim states that `InPort.write` never runs the
owning Block behavior inline, so after a write the behavior-run count should
be unchanged; writing one value to a fresh port runs it once. -/
theorem inPortWrite_inline_cex :
    (inPortWrite ⟨[], 0⟩ 5).behaviorRuns ≠ 0 := by
  decide

/-- C6 amended: `InPort.write` appends the value to the FIFO and invokes the
owning Block behavior inline, exactly once per write (nothing is deferred to
any re-activation queue): after any sequence of writes to a fresh port the
buffer holds the values in order and the behavior has run once per write. -/
theorem inPortWrite_appends_and_runs_inline (ds : List Nat) :
    (ds.foldl inPortWrite ⟨[], 0⟩).buf = ds ∧
    (ds.foldl inPortWrite ⟨[], 0⟩).behaviorRuns = ds.length := by
  have general : ∀ (ds : List Nat) (s : InPortState),
      (ds.foldl inPortWrite s).buf = s.buf ++ ds ∧
      (ds.foldl inPortWrite s).behaviorRuns = s.behaviorRuns + ds.length := by
    intro ds
    induction ds with
    | nil => intro s; simp
    | cons d rest ih =>
        intro s
        obtain ⟨h1, h2⟩ := ih (inPortWrite s d)
        refine ⟨?_, ?_⟩
        · rw [List.foldl_cons, h1]
          simp [inPortWrite]
        · rw [List.foldl_cons, h2]
          simp only [inPortWrite, List.length_cons]
          omega
  have h := general ds ⟨[], 0⟩
  simpa using h

/-- C7 counterexample: the claim states that after connecting an InPort the
first disconnect returns a boolean True (found) and the second a boolean
False (not found). In the block.py variant (the one imported by component.py
and BusAgent.py) both calls return the same value, the block associated with
the inport, so the claimed found-then-not-found outcome does not occur:
connecting port 0 (owned by block 3) to an empty outport, the first and the
second disconnect both return 3. -/
theorem blockpy_disconnect_no_found_cex :
    outPortDisconnectBlk (fun b => b + 3) (outPortConnect [] 0) 0 = ([], 3) ∧
    outPortDisconnectBlk (fun b => b + 3) [] 0 = ([], 3) ∧
    (outPortDisconnectBlk (fun b => b + 3) (outPortConnect [] 0) 0).2
      = (outPortDisconnectBlk (fun b => b + 3) [] 0).2 := by
  decide

/-- C7 amended: in the powlib/verify/__init__.py variant, the first
disconnect of a freshly connected InPort removes it and returns True, and a
second disconnect of the now absent port returns False and leaves the
connection list unchanged, as the claim states. In the block.py variant
(the one on the live code path), disconnect performs the same removal —
first occurrence removed when present, list unchanged when absent — but
returns the block associated with the inport in both cases, never a
found/not-found boolean. -/
theorem outPort_disconnect_variants (l : List Nat) (p : Nat)
    (blockOf : Nat → Nat) (hp : p ∉ l) :
    (outPortDisconnect (outPortConnect l p) p = (l, true) ∧
      outPortDisconnect l p = (l, false)) ∧
    (outPortDisconnectBlk blockOf (outPortConnect l p) p = (l, blockOf p) ∧
      outPortDisconnectBlk blockOf l p = (l, blockOf p)) := by
  have hnone : l.findIdx? (fun inp => inp == p) = none :=
    List.findIdx?_eq_none_iff.mpr fun x hx =>
      beq_eq_false_iff_ne.mpr (fun h => hp (h ▸ hx))
  have hfind : (l ++ [p]).findIdx? (fun inp => inp == p) = some l.length := by
    rw [List.findIdx?_append, hnone]
    simp
  have herase : (l ++ [p]).eraseIdx l.length = l := by
    rw [List.eraseIdx_append_of_length_le (Nat.le_refl _)]
    simp
  refine ⟨⟨?_, ?_⟩, ?_, ?_⟩
  · show outPortDisconnect (l ++ [p]) p = (l, true)
    unfold outPortDisconnect
    rw [hfind]
    show ((l ++ [p]).eraseIdx l.length, true) = (l, true)
    rw [herase]
  · unfold outPortDisconnect
    rw [hnone]
  · show outPortDisconnectBlk blockOf (l ++ [p]) p = (l, blockOf p)
    unfold outPortDisconnectBlk
    rw [hfind]
    show ((l ++ [p]).eraseIdx l.length, blockOf p) = (l, blockOf p)
    rw [herase]
  · unfold outPortDisconnectBlk
    rw [hnone]

/-- Witness for `outPort_disconnect_variants` at the empty connection list,
port id 0 and an owning block numbered 10. -/
theorem outPort_disconnect_variants_witness :
    (outPortDisconnect (outPortConnect [] 0) 0 = ([], true) ∧
      outPortDisconnect [] 0 = ([], false)) ∧
    (outPortDisconnectBlk (fun b => b + 10) (outPortConnect [] 0) 0 = ([], 10) ∧
      outPortDisconnectBlk (fun b => b + 10) [] 0 = ([], 10)) :=
  outPort_disconnect_variants [] 0 (fun b => b + 10) (by decide)

/-- C3 counterexample: the claim states that a read over a sequence of N
addresses returns a sequence of N Transactions for every N at least 1; for
the one-element address list [7] with the single response 42 the code
returns the bare Transaction, not the one-element sequence. -/
theorem busAgentRead_singleton_burst_cex :
    busAgentRead (Sum.inr [7]) [42] = some (Sum.inl 42) ∧
    busAgentRead (Sum.inr [7]) [42] ≠ some (Sum.inr [42]) := by
  constructor
  · rfl
  · intro h
    simp [busAgentRead] at h

/-- C3 amended: a single address returns the first response as one
Transaction; a sequence of N addresses with N different from 1 returns the
first N responses in arrival order; a one-element sequence collapses to the
bare first Transaction rather than a one-element sequence. Responses are
consumed in strict issue order in every case. -/
theorem busAgentRead_return_contract {α : Type} (a : Nat) (addrs : List Nat)
    (rs : List α) (hlen : addrs.length ≤ rs.length) :
    (∀ t rest, rs = t :: rest → busAgentRead (Sum.inl a) rs = some (Sum.inl t)) ∧
    (addrs.length ≠ 1 →
      busAgentRead (Sum.inr addrs) rs = some (Sum.inr (rs.take addrs.length))) ∧
    (∀ t rest, rs = t :: rest → addrs.length = 1 →
      busAgentRead (Sum.inr addrs) rs = some (Sum.inl t)) := by
  refine ⟨?_, ?_, ?_⟩
  · rintro t rest rfl
    simp [busAgentRead]
  · intro hne
    have htake : (rs.take addrs.length).length = addrs.length := by
      rw [List.length_take]; omega
    unfold busAgentRead
    rw [if_pos hlen, if_neg (by rw [htake]; exact hne)]
  · rintro t rest rfl h1
    unfold busAgentRead
    show (if addrs.length ≤ (t :: rest).length then
        let transList := List.take addrs.length (t :: rest)
        if transList.length = 1 then Option.map Sum.inl transList.head?
        else some (Sum.inr transList)
      else none) = some (Sum.inl t)
    rw [h1]
    simp

/-- Witness for `busAgentRead_return_contract` with addresses [4, 5] and
responses [10, 20]. -/
theorem busAgentRead_return_contract_witness :
    (∀ t rest, ([10, 20] : List Nat) = t :: rest →
      busAgentRead (Sum.inl 3) [10, 20] = some (Sum.inl t)) ∧
    (([4, 5] : List Nat).length ≠ 1 →
      busAgentRead (Sum.inr [4, 5]) [10, 20]
        = some (Sum.inr (([10, 20] : List Nat).take ([4, 5] : List Nat).length))) ∧
    (∀ t rest, ([10, 20] : List Nat) = t :: rest → ([4, 5] : List Nat).length = 1 →
      busAgentRead (Sum.inr [4, 5]) [10, 20] = some (Sum.inl t)) :=
  busAgentRead_return_contract 3 [4, 5] [10, 20] (by decide)

/-- Helper: `interfaceInit` either succeeds or raises TypeError. -/
theorem interfaceInit_ok_or_typeError (c : List String) (k : List (String × Bool)) :
    interfaceInit c k = .ok () ∨ interfaceInit c k = .error .typeError := by
  unfold interfaceInit
  split
  · exact Or.inr rfl
  · split
    · exact Or.inr rfl
    · exact Or.inl rfl

/-- Helper: sequencing a statement that either succeeds or raises TypeError
in front of a TypeError-raising statement raises TypeError. -/
theorem seqE_typeError (x y : Except PyExn Unit)
    (hx : x = .ok () ∨ x = .error .typeError) (hy : y = .error .typeError) :
    seqE x y = .error .typeError := by
  rcases hx with rfl | rfl <;> rw [hy] <;> rfl

/-- Helper: sequencing two statements that each succeed or raise TypeError
succeeds or raises TypeError. -/
theorem seqE_ok_or_typeError (x y : Except PyExn Unit)
    (hx : x = .ok () ∨ x = .error .typeError)
    (hy : y = .ok () ∨ y = .error .typeError) :
    seqE x y = .ok () ∨ seqE x y = .error .typeError := by
  rcases hx with rfl | rfl <;> rcases hy with rfl | rfl <;> simp [seqE]

/-- C4: constructing a BusAgent raises TypeError for every combination of
constructor arguments. With passive=False the Agent validation iterates
`vars(drivers)`, yielding the key strings wr and rd, whose unpacked second
character is a str and not a Driver, so the isinstance check raises
TypeError; with passive=True the drivers argument is None, which fails the
Namespace check. (When an interface argument itself fails the Interface
construction checks, the earlier cast raises TypeError as well, so the
constructor raises TypeError on every path.) -/
theorem busAgentInit_always_typeError :
    (∀ (wrNames rdNames : List (String × Bool)) (passive : Bool),
      busAgentInit wrNames rdNames passive = .error .typeError) ∧
    (∀ monitorKeys, agentInit (some ["wr", "rd"]) monitorKeys
      = .error .typeError) ∧
    (∀ monitorKeys, agentInit none monitorKeys = .error .typeError) := by
  refine ⟨?_, fun _ => rfl, fun _ => rfl⟩
  intro w r p
  unfold busAgentInit
  apply seqE_typeError
  · cases p
    · exact seqE_ok_or_typeError _ _ (interfaceInit_ok_or_typeError _ w)
        (interfaceInit_ok_or_typeError _ r)
    · exact Or.inl rfl
  · apply seqE_typeError _ _ (interfaceInit_ok_or_typeError _ w)
    apply seqE_typeError _ _ (interfaceInit_ok_or_typeError _ r)
    cases p
    · rfl
    · rfl

/-- Helper invariant for the NeverAllow drive loop: the vld signal has never
been assigned 1, the control point that assigns it is unreachable, and every
pending transaction lacks a vld attribute. -/
theorem hsReach_neverAllow_invariant (s : HsState)
    (h : HsReach NeverAllow (fun it => it = none) s) :
    s.vldOneAssigned = false ∧ s.pc ≠ HsPC.setValid ∧
      ∀ it ∈ s.queue, it = none := by
  induction h with
  | init q hq => exact ⟨rfl, fun hc => HsPC.noConfusion hc, hq⟩
  | step s' h' ih =>
      obtain ⟨pc, q, ai, flag⟩ := s'
      obtain ⟨h1, h2, h3⟩ := ih
      simp only at h1 h2 h3
      cases pc with
      | writeDefault => exact ⟨h1, fun hc => HsPC.noConfusion hc, h3⟩
      | waitReset => exact ⟨h1, fun hc => HsPC.noConfusion hc, h3⟩
      | checkReady =>
          cases q with
          | nil => exact ⟨h1, fun hc => HsPC.noConfusion hc, h3⟩
          | cons x xs => exact ⟨h1, fun hc => HsPC.noConfusion hc, h3⟩
      | writeData =>
          cases q with
          | nil => exact ⟨h1, fun hc => HsPC.noConfusion hc, h3⟩
          | cons item rest =>
              have hitem : item = none := h3 item (List.mem_cons_self item rest)
              subst hitem
              refine ⟨?_, fun hc => HsPC.noConfusion hc,
                fun it hit => h3 it (List.mem_cons_of_mem _ hit)⟩
              show (flag || ((none : Option Nat) == some 1)) = false
              simp [h1]
      | allowLoop =>
          exact ⟨h1, fun hc => HsPC.noConfusion hc, h3⟩
      | setValid => exact absurd rfl h2
      | syncHandshake => exact ⟨h1, fun hc => HsPC.noConfusion hc, h3⟩
      | postSync => exact ⟨h1, fun hc => HsPC.noConfusion hc, h3⟩
      | eventWait => exact ⟨h1, fun hc => HsPC.noConfusion hc, h3⟩
  | enqueue s' it h' hit ih =>
      obtain ⟨h1, h2, h3⟩ := ih
      refine ⟨h1, h2, ?_⟩
      intro x hx
      rcases List.mem_append.mp hx with hx | hx
      · exact h3 x hx
      · rw [List.mem_singleton.mp hx]
        exact hit

/-- C8: a HandshakeWriteDriver whose congestion generator is NeverAllow
never assigns 1 to the vld signal of its interface in any reachable state of
its drive loop (driving bus transactions, which carry no vld attribute of
their own). -/
theorem neverAllow_never_asserts_vld (s : HsState)
    (h : HsReach NeverAllow (fun it => it = none) s) :
    s.vldOneAssigned = false :=
  (hsReach_neverAllow_invariant s h).1

/-- Witness for `neverAllow_never_asserts_vld`: two steps into the loop with
one pending transaction, vld has not been assigned 1. -/
theorem neverAllow_never_asserts_vld_witness :
    (hsStep NeverAllow (hsStep NeverAllow
      ⟨HsPC.writeDefault, [none], 0, false⟩)).vldOneAssigned = false :=
  neverAllow_never_asserts_vld _
    (HsReach.step _ (HsReach.step _ (HsReach.init [none] (by simp))))

/-- Helper: hasattr agrees with getattr producing a value. -/
theorem pyHasattr_eq_isSome {V : Type} (b : List (String × V)) (k : String) :
    pyHasattr b k = (pyGetattr b k).isSome := by
  rw [pyHasattr, pyGetattr]
  cases b.find? (fun p => p.1 == k) <;> rfl

/-- Helper: a successful attribute lookup comes from a member of the dict. -/
theorem pyGetattr_mem {V : Type} {b : List (String × V)} {k : String} {v : V}
    (h : pyGetattr b k = some v) : (k, v) ∈ b := by
  rw [pyGetattr] at h
  obtain ⟨q, hq, hv⟩ := Option.map_eq_some'.mp h
  have hk := List.find?_some hq
  have hmem := List.mem_of_find?_eq_some hq
  obtain ⟨q1, q2⟩ := q
  simp only [beq_iff_eq] at hk
  simp only at hv
  subst hk
  subst hv
  exact hmem

/-- Helper: with unique keys, every member is found by attribute lookup. -/
theorem pyGetattr_eq_some_of_mem {V : Type} {b : List (String × V)}
    (hb : (b.map Prod.fst).Nodup) {k : String} {v : V} (h : (k, v) ∈ b) :
    pyGetattr b k = some v := by
  induction b with
  | nil => cases h
  | cons p rest ih =>
      rw [List.map_cons, List.nodup_cons] at hb
      obtain ⟨hp, hrest⟩ := hb
      rcases List.mem_cons.mp h with he | hmem
      · rw [← he, pyGetattr, List.find?_cons]
        simp
      · have hne : (p.1 == k) = false := by
          rw [beq_eq_false_iff_ne]
          intro heq
          exact hp (heq ▸ List.mem_map.mpr ⟨(k, v), hmem, rfl⟩)
        rw [pyGetattr, List.find?_cons, hne]
        exact ih hrest hmem

/-- Helper: an attribute lookup succeeds exactly on the key set. -/
theorem pyGetattr_isSome_iff {V : Type} (b : List (String × V)) (k : String) :
    (pyGetattr b k).isSome = true ↔ k ∈ b.map Prod.fst := by
  rw [pyGetattr, Option.isSome_map']
  rw [show ((b.find? fun p => p.1 == k).isSome = true) ↔
      ∃ x, x ∈ b ∧ (x.1 == k) = true from List.find?_isSome]
  constructor
  · rintro ⟨x, hx, hpx⟩
    rw [beq_iff_eq] at hpx
    exact hpx ▸ List.mem_map.mpr ⟨x, hx, rfl⟩
  · intro hk
    obtain ⟨x, hx, hfst⟩ := List.mem_map.mp hk
    exact ⟨x, hx, by simp [hfst]⟩

/-- Helper: `issubsetof` is the pointwise containment of attribute maps. -/
theorem issubsetof_eq_true_iff {V : Type} [DecidableEq V]
    (a b : List (String × V)) (ha : (a.map Prod.fst).Nodup) :
    issubsetof a b = true ↔
      ∀ k v, pyGetattr a k = some v → pyGetattr b k = some v := by
  rw [issubsetof, List.all_eq_true]
  constructor
  · intro h k v hav
    have hval := h (k, v) (pyGetattr_mem hav)
    rw [Bool.and_eq_true, decide_eq_true_iff] at hval
    exact hval.2
  · intro h p hp
    have hap : pyGetattr a p.1 = some p.2 := pyGetattr_eq_some_of_mem ha hp
    have hbp := h p.1 p.2 hap
    rw [Bool.and_eq_true, decide_eq_true_iff]
    refine ⟨?_, hbp⟩
    rw [pyHasattr_eq_isSome, hbp]
    rfl

/-- Helper: `isequalto` is the pointwise equality of attribute maps. -/
theorem isequalto_eq_true_iff {V : Type} [DecidableEq V]
    (a b : List (String × V)) (ha : (a.map Prod.fst).Nodup)
    (hb : (b.map Prod.fst).Nodup) :
    isequalto a b = true ↔ ∀ k, pyGetattr a k = pyGetattr b k := by
  rw [isequalto, Bool.and_eq_true, decide_eq_true_iff,
    issubsetof_eq_true_iff a b ha]
  have hcard_a : (a.map Prod.fst).toFinset.card = a.length := by
    rw [List.toFinset_card_of_nodup ha, List.length_map]
  have hcard_b : (b.map Prod.fst).toFinset.card = b.length := by
    rw [List.toFinset_card_of_nodup hb, List.length_map]
  constructor
  · rintro ⟨hsub, hlen⟩ k
    have hkeys : (a.map Prod.fst).toFinset ⊆ (b.map Prod.fst).toFinset := by
      intro x hx
      rw [List.mem_toFinset] at hx ⊢
      rw [← pyGetattr_isSome_iff] at hx
      obtain ⟨v, hv⟩ := Option.isSome_iff_exists.mp hx
      rw [← pyGetattr_isSome_iff, hsub x v hv]
      rfl
    have hset : (a.map Prod.fst).toFinset = (b.map Prod.fst).toFinset :=
      Finset.eq_of_subset_of_card_le hkeys (by rw [hcard_a, hcard_b, hlen])
    cases hak : pyGetattr a k with
    | some v => exact (hsub k v hak).symm
    | none =>
        cases hbk : pyGetattr b k with
        | none => rfl
        | some w =>
            exfalso
            have hkb : k ∈ (b.map Prod.fst).toFinset := by
              rw [List.mem_toFinset, ← pyGetattr_isSome_iff, hbk]
              rfl
            have hka : k ∈ (a.map Prod.fst).toFinset := by rw [hset]; exact hkb
            rw [List.mem_toFinset, ← pyGetattr_isSome_iff, hak] at hka
            cases hka
  · intro h
    refine ⟨fun k v hav => by rw [← h k]; exact hav, ?_⟩
    have hset : (a.map Prod.fst).toFinset = (b.map Prod.fst).toFinset := by
      apply Finset.ext
      intro x
      rw [List.mem_toFinset, List.mem_toFinset,
        ← pyGetattr_isSome_iff, ← pyGetattr_isSome_iff, h x]
    rw [← hcard_a, ← hcard_b, hset]

/-- C9: `isequalto` is symmetric, and holds exactly when the two Namespaces
have identical attribute-name sets with pairwise-equal values (stated as
equality of the attribute lookup maps), given that each Namespace binds each
attribute name once, as a Python object dict does. -/
theorem namespace_isequalto_symm_iff {V : Type} [DecidableEq V]
    (a b : List (String × V)) (ha : (a.map Prod.fst).Nodup)
    (hb : (b.map Prod.fst).Nodup) :
    isequalto a b = isequalto b a ∧
    (isequalto a b = true ↔ ∀ k, pyGetattr a k = pyGetattr b k) := by
  have h1 := isequalto_eq_true_iff a b ha hb
  have h2 := isequalto_eq_true_iff b a hb ha
  refine ⟨?_, h1⟩
  have hiff : (isequalto a b = true) ↔ (isequalto b a = true) := by
    rw [h1, h2]
    exact ⟨fun h k => (h k).symm, fun h k => (h k).symm⟩
  cases hab : isequalto a b <;> cases hba : isequalto b a <;> simp_all

/-- Witness for `namespace_isequalto_symm_iff` on two one-attribute
Namespaces. -/
theorem namespace_isequalto_witness :
    isequalto [("x", (1 : Nat))] [("x", 1)] = isequalto [("x", 1)] [("x", (1 : Nat))] ∧
    (isequalto [("x", (1 : Nat))] [("x", 1)] = true ↔
      ∀ k, pyGetattr [("x", (1 : Nat))] k = pyGetattr [("x", 1)] k) :=
  namespace_isequalto_symm_iff [("x", 1)] [("x", 1)] (by decide) (by decide)

/-- Helper: the write loop never touches addresses below its starting byte
address. -/
theorem ramWriteLoop_lt (n : Nat) :
    ∀ (ram : Nat → Option Nat) (byteAddr data be a : Nat), a < byteAddr →
    ramWriteLoop n ram byteAddr data be a = ram a := by
  induction n with
  | zero => intro ram byteAddr data be a ha; rfl
  | succ m ih =>
      intro ram byteAddr data be a ha
      simp only [ramWriteLoop]
      rw [ih _ (byteAddr + 1) _ _ a (by omega)]
      by_cases hbe : be &&& 1 = 1
      · rw [if_pos hbe]
        show (if a = byteAddr then some (data &&& BYTE_MASK) else ram a) = ram a
        rw [if_neg (by omega : ¬a = byteAddr)]
      · rw [if_neg hbe]

/-- Helper: byte j of the written ram when bit j of be is set. -/
theorem ramWriteLoop_hit (n : Nat) :
    ∀ (ram : Nat → Option Nat) (byteAddr data be j : Nat), j < n →
    (be >>> j) &&& 1 = 1 →
    ramWriteLoop n ram byteAddr data be (byteAddr + j)
      = some ((data >>> (j * BYTE_WIDTH)) &&& BYTE_MASK) := by
  induction n with
  | zero => intro ram byteAddr data be j hj hbit; omega
  | succ m ih =>
      intro ram byteAddr data be j hj hbit
      simp only [ramWriteLoop]
      cases j with
      | zero =>
          have hbe : be &&& 1 = 1 := by simpa using hbit
          rw [ramWriteLoop_lt m _ (byteAddr + 1) _ _ _ (by omega)]
          rw [if_pos hbe]
          show (if byteAddr + 0 = byteAddr then some (data &&& BYTE_MASK)
              else ram (byteAddr + 0))
            = some ((data >>> (0 * BYTE_WIDTH)) &&& BYTE_MASK)
          rw [if_pos (by omega)]
          simp
      | succ j' =>
          have hbit' : ((be >>> 1) >>> j') &&& 1 = 1 := by
            rw [← Nat.shiftRight_add, Nat.add_comm 1 j']
            exact hbit
          rw [show byteAddr + (j' + 1) = (byteAddr + 1) + j' by omega]
          rw [ih _ (byteAddr + 1) (data >>> BYTE_WIDTH) (be >>> 1) j'
            (by omega) hbit']
          rw [← Nat.shiftRight_add]
          rw [show BYTE_WIDTH + j' * BYTE_WIDTH = (j' + 1) * BYTE_WIDTH by
            rw [Nat.succ_mul]; omega]

/-- Helper: byte j of the written ram when bit j of be is clear. -/
theorem ramWriteLoop_miss (n : Nat) :
    ∀ (ram : Nat → Option Nat) (byteAddr data be j : Nat), j < n →
    (be >>> j) &&& 1 = 0 →
    ramWriteLoop n ram byteAddr data be (byteAddr + j) = ram (byteAddr + j) := by
  induction n with
  | zero => intro ram byteAddr data be j hj hbit; omega
  | succ m ih =>
      intro ram byteAddr data be j hj hbit
      simp only [ramWriteLoop]
      cases j with
      | zero =>
          have hbe : be &&& 1 = 0 := by simpa using hbit
          rw [ramWriteLoop_lt m _ (byteAddr + 1) _ _ _ (by omega)]
          rw [if_neg (by omega : ¬be &&& 1 = 1)]
      | succ j' =>
          have hbit' : ((be >>> 1) >>> j') &&& 1 = 0 := by
            rw [← Nat.shiftRight_add, Nat.add_comm 1 j']
            exact hbit
          rw [show byteAddr + (j' + 1) = (byteAddr + 1) + j' by omega]
          rw [ih _ (byteAddr + 1) (data >>> BYTE_WIDTH) (be >>> 1) j'
            (by omega) hbit']
          by_cases hbe : be &&& 1 = 1
          · rw [if_pos hbe]
            show (if (byteAddr + 1) + j' = byteAddr then some (data &&& BYTE_MASK)
                else ram ((byteAddr + 1) + j'))
              = ram ((byteAddr + 1) + j')
            rw [if_neg (by omega)]
          · rw [if_neg hbe]

/-- Helper: a masked byte is below 256. -/
theorem and_BYTE_MASK_lt (d : Nat) : d &&& BYTE_MASK < 256 := by
  have h : BYTE_MASK = 2 ^ 8 - 1 := rfl
  rw [h, Nat.and_pow_two_sub_one_eq_mod]
  exact Nat.mod_lt _ (by norm_num)

/-- Helper: the write loop preserves the all-bytes-below-256 invariant. -/
theorem ramWriteLoop_lt_256 (n : Nat) :
    ∀ (ram : Nat → Option Nat) (byteAddr data be : Nat),
    (∀ a v, ram a = some v → v < 256) →
    ∀ a v, ramWriteLoop n ram byteAddr data be a = some v → v < 256 := by
  induction n with
  | zero => intro ram _ _ _ hram a v h; exact hram a v h
  | succ m ih =>
      intro ram byteAddr data be hram a v h
      simp only [ramWriteLoop] at h
      refine ih _ (byteAddr + 1) (data >>> BYTE_WIDTH) (be >>> 1) ?_ a v h
      intro a' v' h'
      by_cases hbe : be &&& 1 = 1
      · rw [if_pos hbe] at h'
        have h'' : (if a' = byteAddr then some (data &&& BYTE_MASK) else ram a')
            = some v' := h'
        by_cases ha : a' = byteAddr
        · rw [if_pos ha] at h''
          cases h''
          exact and_BYTE_MASK_lt data
        · rw [if_neg ha] at h''
          exact hram a' v' h''
      · rw [if_neg hbe] at h'
        exact hram a' v' h'

/-- Helper: accumulating a shifted byte with lor is addition while the
accumulator stays below the shift position. -/
theorem lor_shiftLeft_eq_add {acc : Nat} (b k : Nat) (hacc : acc < 2 ^ k) :
    acc ||| (b <<< k) = acc + b * 2 ^ k := by
  rw [Nat.shiftLeft_eq, Nat.lor_comm, Nat.mul_comm b (2 ^ k),
    ← Nat.mul_add_lt_is_or hacc b]
  omega

/-- Helper: the read loop assembles the little-endian word of the stored
bytes (default byte where absent). -/
theorem ramReadLoop_eq (W : Nat → Option Nat) (dByte addr : Nat)
    (hram : ∀ a v, W a = some v → v < 256) (hd : dByte < 256) :
    ∀ (n i acc : Nat), acc < 2 ^ (i * BYTE_WIDTH) →
    ramReadLoop W dByte addr n i acc
      = acc + 2 ^ (i * BYTE_WIDTH)
          * bytesVal (fun k => (W (addr + i + k)).getD dByte) n := by
  intro n
  induction n with
  | zero =>
      intro i acc hacc
      simp [ramReadLoop, bytesVal]
  | succ m ih =>
      intro i acc hacc
      have hb : (W (addr + i)).getD dByte < 256 := by
        cases hv : W (addr + i) with
        | none => simpa using hd
        | some v => simpa using hram _ v hv
      have hpow : 2 ^ ((i + 1) * BYTE_WIDTH) = 256 * 2 ^ (i * BYTE_WIDTH) := by
        rw [Nat.succ_mul, pow_add, Nat.mul_comm]
        norm_num [BYTE_WIDTH]
      have hacc' : acc + ((W (addr + i)).getD dByte) * 2 ^ (i * BYTE_WIDTH)
          < 2 ^ ((i + 1) * BYTE_WIDTH) := by
        have hble : ((W (addr + i)).getD dByte) * 2 ^ (i * BYTE_WIDTH)
            ≤ 255 * 2 ^ (i * BYTE_WIDTH) :=
          Nat.mul_le_mul_right _ (by omega)
        rw [hpow]
        omega
      simp only [ramReadLoop]
      rw [lor_shiftLeft_eq_add _ _ hacc]
      rw [ih (i + 1) (acc + ((W (addr + i)).getD dByte) * 2 ^ (i * BYTE_WIDTH))
        hacc']
      simp only [bytesVal]
      have hfun : (fun k => (W (addr + (i + 1) + k)).getD dByte)
          = fun k => (W (addr + i + (k + 1))).getD dByte := by
        funext k
        rw [show addr + (i + 1) + k = addr + i + (k + 1) by omega]
      rw [hfun, hpow]
      simp only [Nat.add_zero]
      ring

/-- Helper: byte extraction from a little-endian byte word. -/
theorem bytesVal_div_mod :
    ∀ (i : Nat) (f : Nat → Nat) (n : Nat), i < n → (∀ k, f k < 256) →
    bytesVal f n / 256 ^ i % 256 = f i := by
  intro i
  induction i with
  | zero =>
      intro f n hn hf
      cases n with
      | zero => omega
      | succ m =>
          simp only [bytesVal]
          rw [pow_zero, Nat.div_one, Nat.add_mul_mod_self_left]
          exact Nat.mod_eq_of_lt (hf 0)
  | succ i' ih =>
      intro f n hn hf
      cases n with
      | zero => omega
      | succ m =>
          simp only [bytesVal]
          rw [pow_succ', ← Nat.div_div_eq_div_mul]
          rw [Nat.add_mul_div_left _ _ (by norm_num : (0 : Nat) < 256)]
          rw [Nat.div_eq_of_lt (hf 0), Nat.zero_add]
          exact ih (fun k => f (k + 1)) m (by omega) (fun k => hf (k + 1))

/-- C10: on a RamBlock with bpd bytes per word, after `write(addr, data, be)`
a `read(addr)` returns the word whose byte i (for every i below bpd) is byte
i of data masked to 8 bits when bit i of be is set, and the previous content
of byte address addr+i otherwise (the default byte when never written).
Stated for ram contents whose stored bytes are below 256, which `write`
maintains and the masked constructor default satisfies. -/
theorem ramBlock_write_read_byte (bpd : Nat) (ram : Nat → Option Nat)
    (addr data be dByte i : Nat) (hi : i < bpd) (hd : dByte < 256)
    (hram : ∀ a v, ram a = some v → v < 256) :
    ramRead bpd dByte (ramWrite bpd ram addr data be) addr / 256 ^ i % 256 =
      if (be >>> i) &&& 1 = 1 then (data >>> (i * BYTE_WIDTH)) &&& BYTE_MASK
      else (ram (addr + i)).getD dByte := by
  have hram' : ∀ a v, ramWrite bpd ram addr data be a = some v → v < 256 :=
    ramWriteLoop_lt_256 bpd ram addr data be hram
  have hbytes : ∀ k, ((ramWrite bpd ram addr data be) (addr + k)).getD dByte < 256 := by
    intro k
    cases hv : ramWrite bpd ram addr data be (addr + k) with
    | none => simpa using hd
    | some v => simpa using hram' _ v hv
  have hread : ramRead bpd dByte (ramWrite bpd ram addr data be) addr
      = bytesVal (fun k => ((ramWrite bpd ram addr data be) (addr + k)).getD dByte) bpd := by
    rw [ramRead]
    have h := ramReadLoop_eq (ramWrite bpd ram addr data be) dByte addr hram' hd
      bpd 0 0 (by simp)
    simpa using h
  rw [hread, bytesVal_div_mod i _ bpd hi hbytes]
  by_cases hbit : (be >>> i) &&& 1 = 1
  · rw [if_pos hbit]
    rw [show ramWrite bpd ram addr data be (addr + i)
        = some ((data >>> (i * BYTE_WIDTH)) &&& BYTE_MASK) from
      ramWriteLoop_hit bpd ram addr data be i hi hbit]
    rfl
  · rw [if_neg hbit]
    have h0 : (be >>> i) &&& 1 = 0 := by
      have h1 := Nat.and_one_is_mod (be >>> i)
      omega
    rw [show ramWrite bpd ram addr data be (addr + i) = ram (addr + i) from
      ramWriteLoop_miss bpd ram addr data be i hi h0]

/-- Witness for `ramBlock_write_read_byte`: a two-byte ram, writing 300 with
byte enable 1 at address 0, then reading byte 1 (which the enable left
untouched, so the default byte 7 appears). -/
theorem ramBlock_write_read_byte_witness :
    (1 : Nat) < 2 ∧ (7 : Nat) < 256 ∧
    ramRead 2 7 (ramWrite 2 (fun _ => none) 0 300 1) 0 / 256 ^ 1 % 256 =
      if ((1 : Nat) >>> 1) &&& 1 = 1 then
        ((300 : Nat) >>> (1 * BYTE_WIDTH)) &&& BYTE_MASK
      else (((fun _ => none) : Nat → Option Nat) (0 + 1)).getD 7 :=
  ⟨by decide, by decide,
    ramBlock_write_read_byte 2 (fun _ => none) 0 300 1 7 1 (by decide)
      (by decide) (fun a v h => Option.noConfusion h)⟩
